import Mathlib

/-!
Shallow embedding of the 6502 emulator in src/src/main.rs.

Modelling conventions:
* Machine integers (u8, u16, u32) are `Nat` values kept in range by explicit
  `% 256`, `% 65536`, `% 4294967296` at every operation where the Rust code
  performs wrapping arithmetic (release-profile two's-complement semantics).
* Array indexing `self.data[index]` on the 65536-byte memory panics in Rust
  when `index ≥ 65536`.  The only call site that can produce such an index is
  `MEM::write_word` (its `addr` parameter is `u32` and it also indexes
  `addr + 1`), so `MEM.write_word` returns an `Option`, `none` meaning panic.
  All other indexing sites receive indices cast from `u16` or `u8` and are
  in bounds by construction.
* The `&mut u32` cycle counter and the `&mut self` CPU are modelled by
  explicit state passing; the `while` loop of `CPU::exec` is modelled with a
  fuel parameter because the wrapping cycle counter admits unbounded runs.
-/

/-- Memory of the emulator: `struct MEM { data: [BYTE; 1024 * 64] }`.
The byte store is a function from addresses to byte values; all values
written by the program are below 256, mirroring the `u8` element type. -/
structure MEM where
  data : Nat → Nat

/-- Pointwise update of one memory cell, the model of `self[index] = v`
through the `IndexMut` implementation (which does no address reduction). -/
def MEM.writeByte (m : MEM) (addr v : Nat) : MEM :=
  ⟨fun i => if i = addr then v else m.data i⟩

/-- Wrapping decrement of the `u32` cycle counter: `*cycles -= 1` under
release-profile semantics, i.e. subtraction modulo 2^32. -/
def decCycles (c : Nat) : Nat := (c + 4294967295) % 4294967296

/-- Wrapping double decrement of the `u32` cycle counter: `*cycles -= 2`. -/
def decCycles2 (c : Nat) : Nat := (c + 4294967294) % 4294967296

/-- Model of `MEM::write_word(&mut self, data: WORD, addr: u32, cycles: &mut u32)`:
writes the low byte at `addr` and the high byte at `addr + 1`, then does
`*cycles -= 2`.  The indexing panics (modelled as `none`) when an index
reaches 65536, since `Index for MEM` does plain array indexing. -/
def MEM.write_word (m : MEM) (data addr cycles : Nat) : Option (MEM × Nat) :=
  if addr < 65536 then
    let m1 := m.writeByte addr (data &&& 0xFF)
    if addr + 1 < 65536 then
      some (m1.writeByte (addr + 1) ((data >>> 8) % 256), decCycles2 cycles)
    else none
  else none

/-- Processor state: `struct CPU`, with the field types of the source
(`pc`, `sp` are `u16`; `a`, `x`, `y` and the flag bytes are `u8`;
`Z` and `N` are `bool`). -/
structure CPU where
  pc : Nat
  sp : Nat
  a : Nat
  x : Nat
  y : Nat
  C : Nat
  Z : Bool
  I : Nat
  D : Nat
  B : Nat
  V : Nat
  N : Bool
deriving DecidableEq

/-- The all-zero CPU constructed in `main`:
`CPU { pc: 0, sp: 0, a: 0, y: 0, x: 0, C: 0, Z: false, I: 0, D: 0, B: 0, V: 0, N: false }`. -/
def CPU.zeroed : CPU :=
  { pc := 0, sp := 0, a := 0, x := 0, y := 0, C := 0, Z := false,
    I := 0, D := 0, B := 0, V := 0, N := false }

/-- Model of `CPU::reset`: the source assigns `pc = 0xFFFC`, `sp = 0x00FF`,
`D = 0`, `a = 0`, `x = 0`, `y = 0` and never reads `mem`. -/
def CPU.reset (cpu : CPU) (_mem : MEM) : CPU :=
  { cpu with pc := 0xFFFC, sp := 0x00FF, D := 0, a := 0, x := 0, y := 0 }

/-- Model of `CPU::fetch_byte`: reads `mem[pc]`, increments `pc` (u16,
wrapping) and decrements the cycle counter; returns the byte together with
the updated CPU and counter. -/
def CPU.fetch_byte (cpu : CPU) (mem : MEM) (cycles : Nat) : Nat × CPU × Nat :=
  (mem.data cpu.pc, { cpu with pc := (cpu.pc + 1) % 65536 }, decCycles cycles)

/-- Model of `CPU::fetch_word`: two byte reads at `pc` and `pc + 1`
(little endian, `data += (mem[pc] as u16) << 8`), incrementing `pc` and
decrementing the counter once per byte. -/
def CPU.fetch_word (cpu : CPU) (mem : MEM) (cycles : Nat) : Nat × CPU × Nat :=
  let data := mem.data cpu.pc
  let cpu1 : CPU := { cpu with pc := (cpu.pc + 1) % 65536 }
  let cycles1 := decCycles cycles
  let data2 := data + (mem.data cpu1.pc) <<< 8
  let cpu2 : CPU := { cpu1 with pc := (cpu1.pc + 1) % 65536 }
  (data2, cpu2, decCycles cycles1)

/-- Model of `CPU::read_byte`: reads `mem[addr]` for an operand address,
yet still executes `self.pc += 1` exactly as the source does. -/
def CPU.read_byte (cpu : CPU) (mem : MEM) (addr cycles : Nat) : Nat × CPU × Nat :=
  (mem.data addr, { cpu with pc := (cpu.pc + 1) % 65536 }, decCycles cycles)

/-- Model of `CPU::lda_set_status`: `Z = (a == 0)`, `N = (a & 0b10000000) > 0`. -/
def CPU.lda_set_status (cpu : CPU) : CPU :=
  { cpu with Z := cpu.a == 0, N := decide (0 < (cpu.a &&& 0b10000000)) }

/-- Wrapping u16 subtraction, used for `self.pc - 1` in the JSR branch. -/
def wrapSub16 (a b : Nat) : Nat := (a + 65536 - b % 65536) % 65536

/-- Outcome of one iteration of the `while` loop body of `CPU::exec`. -/
inductive StepResult where
  | cont (cpu : CPU) (mem : MEM) (cycles : Nat)
  | halt (cpu : CPU) (mem : MEM) (cycles : Nat)
  | panicked

/-- One iteration of the loop body of `CPU::exec`: fetch the opcode and
dispatch on it.  `halt` corresponds to the `_ => break` arm, `cont` to a
completed instruction, `panicked` to an out-of-bounds write inside
`write_word`. -/
def execStep (cpu : CPU) (mem : MEM) (cycles : Nat) : StepResult :=
  let f1 := CPU.fetch_byte cpu mem cycles
  let instruction := f1.1
  let cpu1 := f1.2.1
  let cycles1 := f1.2.2
  if instruction = 0xA9 then
    let f2 := CPU.fetch_byte cpu1 mem cycles1
    .cont (CPU.lda_set_status { f2.2.1 with a := f2.1 }) mem f2.2.2
  else if instruction = 0xA5 then
    let f2 := CPU.fetch_byte cpu1 mem cycles1
    let r := CPU.read_byte f2.2.1 mem f2.1 f2.2.2
    .cont (CPU.lda_set_status { r.2.1 with a := r.1 }) mem r.2.2
  else if instruction = 0xB5 then
    let f2 := CPU.fetch_byte cpu1 mem cycles1
    let zero_page_addr_X := (f2.1 + f2.2.1.x) % 256
    let cycles2 := decCycles f2.2.2
    let r := CPU.read_byte f2.2.1 mem zero_page_addr_X cycles2
    .cont (CPU.lda_set_status { r.2.1 with a := r.1 }) mem r.2.2
  else if instruction = 0x20 then
    let f2 := CPU.fetch_word cpu1 mem cycles1
    let subAddr := f2.1
    let cpu2 := f2.2.1
    match MEM.write_word mem (wrapSub16 cpu2.pc 1) cpu2.sp f2.2.2 with
    | some (mem1, cycles3) => .cont { cpu2 with pc := subAddr } mem1 (decCycles cycles3)
    | none => .panicked
  else .halt cpu1 mem cycles1

/-- Result of a call to `CPU::exec`: the final CPU, memory and remaining
cycle counter (the source exposes them through `&mut`), a panic, or
exhaustion of the modelling fuel. -/
inductive ExecResult where
  | ok (cpu : CPU) (mem : MEM) (cycles : Nat)
  | panicked
  | outOfFuel

/-- Model of `CPU::exec`: `while *cycles > 0 { ...body... }`, with a fuel
bound on the number of iterations. -/
def CPU.exec (fuel : Nat) (cpu : CPU) (mem : MEM) (cycles : Nat) : ExecResult :=
  if 0 < cycles then
    match fuel with
    | 0 => .outOfFuel
    | f + 1 =>
      match execStep cpu mem cycles with
      | .cont cpu1 mem1 cycles1 => CPU.exec f cpu1 mem1 cycles1
      | .halt cpu1 mem1 cycles1 => .ok cpu1 mem1 cycles1
      | .panicked => .panicked
  else .ok cpu mem cycles

/-- Final CPU of an execution result, when it finished normally. -/
def ExecResult.cpuOf : ExecResult → Option CPU
  | .ok c _ _ => some c
  | _ => none

/-- Final memory of an execution result, when it finished normally. -/
def ExecResult.memOf : ExecResult → Option MEM
  | .ok _ m _ => some m
  | _ => none

/-- Remaining cycle counter of an execution result, when it finished
normally. -/
def ExecResult.cyclesOf : ExecResult → Option Nat
  | .ok _ _ c => some c
  | _ => none

/-- Formalisation of the specified flag discipline of a load: on the result
of a run that loaded operand value `v` starting from `cpu`, value 0 sets
Zero and clears Negative, a set bit 7 sets Negative and clears Zero, and
the flags other than Zero and Negative are unchanged. -/
def FlagSpec (r : ExecResult) (cpu : CPU) (v : Nat) : Prop :=
  (v = 0 → r.cpuOf.map CPU.Z = some true ∧ r.cpuOf.map CPU.N = some false) ∧
  (0 < (v &&& 0b10000000) → r.cpuOf.map CPU.N = some true ∧ r.cpuOf.map CPU.Z = some false) ∧
  r.cpuOf.map CPU.C = some cpu.C ∧ r.cpuOf.map CPU.I = some cpu.I ∧
  r.cpuOf.map CPU.D = some cpu.D ∧ r.cpuOf.map CPU.B = some cpu.B ∧
  r.cpuOf.map CPU.V = some cpu.V

/-! Concrete machine states used to instantiate the theorems below. -/

/-- Memory holding only zero bytes. -/
def mAllZero : MEM := ⟨fun _ => 0⟩

/-- Memory holding 0xFF in every cell; 0xFF has no decode-table entry. -/
def mAllFF : MEM := ⟨fun _ => 0xFF⟩

/-- Memory whose reset vector 0xFFFC/0xFFFD holds the little-endian word
0x0200. -/
def mC1 : MEM := ⟨fun i => if i = 0xFFFC then 0x00 else if i = 0xFFFD then 0x02 else 0⟩

/-- Memory with an LDA zero-page instruction `A5 42` at 0x0200 and operand
byte 0x10 at 0x0042. -/
def mC2 : MEM :=
  ⟨fun i => if i = 0x0200 then 0xA5 else if i = 0x0201 then 0x42 else
    if i = 0x42 then 0x10 else 0⟩

/-- CPU about to execute at 0x0200. -/
def cpuC2 : CPU := { CPU.zeroed with pc := 0x0200 }

/-- Memory with two LDA immediate instructions `A9 11 A9 22` at 0x0000,
followed by the illegal opcode 0x00. -/
def mC3 : MEM :=
  ⟨fun i => if i = 0 then 0xA9 else if i = 1 then 0x11 else
    if i = 2 then 0xA9 else if i = 3 then 0x22 else 0⟩

/-- Memory with an LDA immediate opcode at 0x0FFF; every other cell (in
particular 0x1000) holds the illegal opcode 0x00. -/
def mC4 : MEM := ⟨fun i => if i = 0x0FFF then 0xA9 else 0⟩

/-- CPU about to fetch the illegal opcode at 0x1000 of `mC4`. -/
def cpuC4A : CPU := { CPU.zeroed with pc := 0x1000, Z := true }

/-- CPU about to execute the LDA immediate at 0x0FFF of `mC4`. -/
def cpuC4B : CPU := { CPU.zeroed with pc := 0x0FFF }

/-- Memory with a JSR instruction `20 34 12` (target 0x1234) at 0x0200. -/
def mC5 : MEM :=
  ⟨fun i => if i = 0x0200 then 0x20 else if i = 0x0201 then 0x34 else
    if i = 0x0202 then 0x12 else 0⟩

/-- CPU as left by `reset` but pointed at 0x0200: `sp = 0xFF`. -/
def cpuC5 : CPU := { CPU.zeroed with pc := 0x0200, sp := 0xFF }

/-- Memory with the immediate load `A9 37` at 0x0000. -/
def mC6im : MEM := ⟨fun i => if i = 0 then 0xA9 else if i = 1 then 0x37 else 0⟩

/-- Memory with the zero-page load `A5 42` at 0x0000 and operand 0x10 at
0x0042. -/
def mC6zp : MEM :=
  ⟨fun i => if i = 0 then 0xA5 else if i = 1 then 0x42 else
    if i = 0x42 then 0x10 else 0⟩

/-- Memory with the zero-page,X load `B5 80` at 0x0000 and operand 0x55 at
0x0080. -/
def mC6zpx : MEM :=
  ⟨fun i => if i = 0 then 0xB5 else if i = 1 then 0x80 else
    if i = 0x80 then 0x55 else 0⟩

/-- Memory with the immediate load `A9 00` at 0x0000: operand value 0. -/
def mC7a : MEM := ⟨fun i => if i = 0 then 0xA9 else 0⟩

/-- Memory with the zero-page load `A5 42` at 0x0000 and operand 0x80
(bit 7 set) at 0x0042. -/
def mC7b : MEM :=
  ⟨fun i => if i = 0 then 0xA5 else if i = 1 then 0x42 else
    if i = 0x42 then 0x80 else 0⟩

/-- Memory with the zero-page,X load `B5 80` at 0x0000 and operand 0x5A at
0x007F, the wrapped effective address for base 0x80 and X = 0xFF. -/
def mC8 : MEM :=
  ⟨fun i => if i = 0 then 0xB5 else if i = 1 then 0x80 else
    if i = 0x7F then 0x5A else 0⟩

/-- CPU with X = 0xFF, so that the zero-page,X sum 0x80 + 0xFF wraps. -/
def cpuC8 : CPU := { CPU.zeroed with x := 0xFF }

/-! Helper lemmas about the loop structure of `CPU.exec`. -/

/-- With an exhausted budget the loop guard fails and nothing happens. -/
lemma exec_zero (fuel : Nat) (cpu : CPU) (mem : MEM) :
    CPU.exec fuel cpu mem 0 = .ok cpu mem 0 := by
  unfold CPU.exec
  simp

/-- With a positive budget the loop runs its body once and continues. -/
lemma exec_pos (f : Nat) (cpu : CPU) (mem : MEM) (cycles : Nat) (h : 0 < cycles) :
    CPU.exec (f + 1) cpu mem cycles =
      match execStep cpu mem cycles with
      | .cont cpu1 mem1 cycles1 => CPU.exec f cpu1 mem1 cycles1
      | .halt cpu1 mem1 cycles1 => .ok cpu1 mem1 cycles1
      | .panicked => .panicked := by
  conv_lhs => unfold CPU.exec
  simp [h]

/-- A single instruction that lands the counter exactly on 0 ends the run. -/
lemma exec_one (f : Nat) (cpu : CPU) (mem : MEM) (cycles : Nat) (c : CPU) (m : MEM)
    (h : 0 < cycles) (hs : execStep cpu mem cycles = .cont c m 0) :
    CPU.exec (f + 1) cpu mem cycles = .ok c m 0 := by
  rw [exec_pos f cpu mem cycles h, hs]
  exact exec_zero f c m

/-- A loop body that breaks returns the current machine state. -/
lemma exec_break (f : Nat) (cpu : CPU) (mem : MEM) (cycles : Nat) (c : CPU) (m : MEM)
    (cy : Nat) (h : 0 < cycles) (hs : execStep cpu mem cycles = .halt c m cy) :
    CPU.exec (f + 1) cpu mem cycles = .ok c m cy := by
  rw [exec_pos f cpu mem cycles h, hs]

/-- Normalisation of two successive wrapping `pc` increments. -/
lemma pcBump2 (p : Nat) : ((p + 1) % 65536 + 1) % 65536 = (p + 2) % 65536 := by
  omega

/-- Normalisation of three successive wrapping `pc` increments. -/
lemma pcBump3 (p : Nat) : (((p + 1) % 65536 + 1) % 65536 + 1) % 65536 = (p + 3) % 65536 := by
  omega

/-- Loop body on the `0xA9` (LDA immediate) opcode: two fetches, the
accumulator takes the operand byte, flags are recomputed. -/
lemma execStep_im (cpu : CPU) (mem : MEM) (cycles : Nat) (h : mem.data cpu.pc = 0xA9) :
    execStep cpu mem cycles =
      .cont (CPU.lda_set_status
              { cpu with pc := (cpu.pc + 2) % 65536, a := mem.data ((cpu.pc + 1) % 65536) })
            mem (decCycles (decCycles cycles)) := by
  simp [execStep, CPU.fetch_byte, h, pcBump2]

/-- Loop body on the `0xA5` (LDA zero page) opcode: fetch the zero-page
address, read the operand there; the buggy `read_byte` gives `pc` a third
increment. -/
lemma execStep_zp (cpu : CPU) (mem : MEM) (cycles : Nat) (h : mem.data cpu.pc = 0xA5) :
    execStep cpu mem cycles =
      .cont (CPU.lda_set_status
              { cpu with pc := (cpu.pc + 3) % 65536,
                         a := mem.data (mem.data ((cpu.pc + 1) % 65536)) })
            mem (decCycles (decCycles (decCycles cycles))) := by
  simp [execStep, CPU.fetch_byte, CPU.read_byte, h, pcBump3]

/-- Loop body on the `0xB5` (LDA zero page,X) opcode: fetch the base
address, add the X register with 8-bit wraparound, read the operand there;
one extra cycle for the index computation, and the buggy `read_byte`
increments `pc` a third time. -/
lemma execStep_zpx (cpu : CPU) (mem : MEM) (cycles : Nat) (h : mem.data cpu.pc = 0xB5) :
    execStep cpu mem cycles =
      .cont (CPU.lda_set_status
              { cpu with pc := (cpu.pc + 3) % 65536,
                         a := mem.data ((mem.data ((cpu.pc + 1) % 65536) + cpu.x) % 256) })
            mem (decCycles (decCycles (decCycles (decCycles cycles)))) := by
  simp [execStep, CPU.fetch_byte, CPU.read_byte, h, pcBump3]

/-- Loop body on an opcode with no decode arm: the `_ => break` case; only
the opcode fetch happened. -/
lemma execStep_illegal (cpu : CPU) (mem : MEM) (cycles : Nat)
    (h1 : mem.data cpu.pc ≠ 0xA9) (h2 : mem.data cpu.pc ≠ 0xA5)
    (h3 : mem.data cpu.pc ≠ 0xB5) (h4 : mem.data cpu.pc ≠ 0x20) :
    execStep cpu mem cycles =
      .halt { cpu with pc := (cpu.pc + 1) % 65536 } mem (decCycles cycles) := by
  simp [execStep, CPU.fetch_byte, h1, h2, h3, h4]

/-- Loop body on the `0x20` (JSR) opcode, away from the wrap corners:
fetch the target word, write `pc - 1` (the address of the last instruction
byte) little endian at `[sp]` and `[sp + 1]`, leave `sp` itself unchanged,
and jump. -/
lemma execStep_jsr (cpu : CPU) (mem : MEM) (cycles : Nat)
    (h : mem.data cpu.pc = 0x20) (hpc : cpu.pc + 3 < 65536) (hsp : cpu.sp + 1 < 65536) :
    execStep cpu mem cycles =
      .cont { cpu with pc := mem.data (cpu.pc + 1) + (mem.data (cpu.pc + 2)) <<< 8 }
            ((mem.writeByte cpu.sp ((cpu.pc + 2) &&& 0xFF)).writeByte
              (cpu.sp + 1) (((cpu.pc + 2) >>> 8) % 256))
            (decCycles (decCycles2 (decCycles (decCycles (decCycles cycles))))) := by
  have e1 : (cpu.pc + 1) % 65536 = cpu.pc + 1 := by omega
  have e2 : ((cpu.pc + 1) % 65536 + 1) % 65536 = cpu.pc + 2 := by omega
  have e2' : (cpu.pc + 1 + 1) % 65536 = cpu.pc + 2 := by omega
  have e3 : (cpu.pc + 2 + 1) % 65536 = cpu.pc + 3 := by omega
  have ew : wrapSub16 (cpu.pc + 3) 1 = cpu.pc + 2 := by
    unfold wrapSub16
    omega
  have hsp0 : cpu.sp < 65536 := by omega
  simp [execStep, CPU.fetch_byte, CPU.fetch_word, MEM.write_word, h,
        e1, e2, e2', e3, ew, hsp0, hsp]

/-- Complete run of a single LDA immediate with a budget of exactly 2. -/
lemma run_im (f : Nat) (cpu : CPU) (mem : MEM) (h : mem.data cpu.pc = 0xA9) :
    CPU.exec (f + 1) cpu mem 2 =
      .ok (CPU.lda_set_status
            { cpu with pc := (cpu.pc + 2) % 65536, a := mem.data ((cpu.pc + 1) % 65536) })
          mem 0 := by
  have hs := execStep_im cpu mem 2 h
  have hc : decCycles (decCycles 2) = 0 := by decide
  rw [hc] at hs
  exact exec_one f cpu mem 2 _ _ (by decide) hs

/-- Complete run of a single LDA zero page with a budget of exactly 3. -/
lemma run_zp (f : Nat) (cpu : CPU) (mem : MEM) (h : mem.data cpu.pc = 0xA5) :
    CPU.exec (f + 1) cpu mem 3 =
      .ok (CPU.lda_set_status
            { cpu with pc := (cpu.pc + 3) % 65536,
                       a := mem.data (mem.data ((cpu.pc + 1) % 65536)) })
          mem 0 := by
  have hs := execStep_zp cpu mem 3 h
  have hc : decCycles (decCycles (decCycles 3)) = 0 := by decide
  rw [hc] at hs
  exact exec_one f cpu mem 3 _ _ (by decide) hs

/-- Complete run of a single LDA zero page,X with a budget of exactly 4. -/
lemma run_zpx (f : Nat) (cpu : CPU) (mem : MEM) (h : mem.data cpu.pc = 0xB5) :
    CPU.exec (f + 1) cpu mem 4 =
      .ok (CPU.lda_set_status
            { cpu with pc := (cpu.pc + 3) % 65536,
                       a := mem.data ((mem.data ((cpu.pc + 1) % 65536) + cpu.x) % 256) })
          mem 0 := by
  have hs := execStep_zpx cpu mem 4 h
  have hc : decCycles (decCycles (decCycles (decCycles 4))) = 0 := by decide
  rw [hc] at hs
  exact exec_one f cpu mem 4 _ _ (by decide) hs

/-- Complete run of a single JSR with a budget of exactly 6. -/
lemma run_jsr (f : Nat) (cpu : CPU) (mem : MEM)
    (h : mem.data cpu.pc = 0x20) (hpc : cpu.pc + 3 < 65536) (hsp : cpu.sp + 1 < 65536) :
    CPU.exec (f + 1) cpu mem 6 =
      .ok { cpu with pc := mem.data (cpu.pc + 1) + (mem.data (cpu.pc + 2)) <<< 8 }
          ((mem.writeByte cpu.sp ((cpu.pc + 2) &&& 0xFF)).writeByte
            (cpu.sp + 1) (((cpu.pc + 2) >>> 8) % 256))
          0 := by
  have hs := execStep_jsr cpu mem 6 h hpc hsp
  have hc : decCycles (decCycles2 (decCycles (decCycles (decCycles 6)))) = 0 := by decide
  rw [hc] at hs
  exact exec_one f cpu mem 6 _ _ (by decide) hs

/-- The flag discipline holds for any result whose CPU came out of
`lda_set_status` applied after loading `v` into the accumulator. -/
lemma flagSpec_lda (cpu : CPU) (p v : Nat) (m : MEM) (cy : Nat) :
    FlagSpec (.ok (CPU.lda_set_status { cpu with pc := p, a := v }) m cy) cpu v := by
  unfold FlagSpec
  simp only [ExecResult.cpuOf, Option.map_some', Option.some.injEq, CPU.lda_set_status]
  refine ⟨fun hv => ?_, fun hv => ⟨decide_eq_true hv, ?_⟩,
    trivial, trivial, trivial, trivial, trivial⟩
  · subst hv
    refine ⟨rfl, decide_eq_false ?_⟩
    simp
  · have hvne : v ≠ 0 := by
      intro h0
      rw [h0] at hv
      simp at hv
    exact beq_eq_false_iff_ne.mpr hvne

/-! Claim theorems. -/

/-- C1 (amended): `reset` sets the program counter to the constant 0xFFFC —
the reset-vector address itself, not the word stored there — sets the stack
pointer to 0xFF, clears the Decimal flag, zeroes A, X and Y, and leaves
every other field of the CPU unchanged. -/
theorem C1_reset_behaviour (cpu : CPU) (mem : MEM) :
    (CPU.reset cpu mem).pc = 0xFFFC ∧ (CPU.reset cpu mem).sp = 0xFF ∧
    (CPU.reset cpu mem).D = 0 ∧ (CPU.reset cpu mem).a = 0 ∧
    (CPU.reset cpu mem).x = 0 ∧ (CPU.reset cpu mem).y = 0 ∧
    (CPU.reset cpu mem).C = cpu.C ∧ (CPU.reset cpu mem).Z = cpu.Z ∧
    (CPU.reset cpu mem).I = cpu.I ∧ (CPU.reset cpu mem).B = cpu.B ∧
    (CPU.reset cpu mem).V = cpu.V ∧ (CPU.reset cpu mem).N = cpu.N :=
  ⟨rfl, rfl, rfl, rfl, rfl, rfl, rfl, rfl, rfl, rfl, rfl, rfl⟩

/-- C1 (counterexample): with the little-endian word 0x0200 stored at the
reset-vector cells 0xFFFC/0xFFFD, `reset` leaves the program counter at
0xFFFC and not at the stored word 0x0200, contradicting the claim. -/
theorem C1_reset_counterexample :
    (CPU.reset CPU.zeroed mC1).pc = 0xFFFC ∧
    mC1.data 0xFFFC + mC1.data 0xFFFD * 256 = 0x0200 ∧
    (0xFFFC : Nat) ≠ 0x0200 :=
  ⟨rfl, rfl, by decide⟩

/-- C2 (evaluation at the failing input): `read_byte` advances the program
counter on an operand read — starting at 0x0200 it leaves PC at 0x0201 —
and consequently the two-byte LDA zero-page instruction `A5 42` at 0x0200
finishes with PC at 0x0203 instead of 0x0202. -/
theorem C2_read_byte_moves_pc :
    (CPU.read_byte cpuC2 mC2 0x42 3).2.1.pc = 0x0201 ∧
    CPU.exec 1 cpuC2 mC2 3 = .ok { cpuC2 with pc := 0x0203, a := 0x10 } mC2 0 :=
  ⟨rfl, rfl⟩

/-- C3 (evaluation at the failing input): with a cycle budget of 1 the
in-flight LDA immediate underflows the u32 counter, which wraps to
2^32 − 1, and the loop then fetches and executes a second instruction
(the accumulator ends at 0x22, loaded by the second LDA), stopping only at
the illegal opcode with 4294967292 cycles left. -/
theorem C3_budget_underflow_keeps_running :
    CPU.exec 3 CPU.zeroed mC3 1 =
      .ok { CPU.zeroed with pc := 5, a := 0x22 } mC3 4294967292 :=
  rfl

/-- C4 (counterexample): a run that halts on an illegal opcode (budget 1,
fetching 0x00 at 0x1000) and a run that terminates by normal budget
exhaustion (budget 2, executing `A9 00` at 0x0FFF) return identical
results — `exec` exposes no halt signal that distinguishes them. -/
theorem C4_no_distinct_halt_signal :
    mC4.data 0x1000 = 0x00 ∧ mC4.data 0x0FFF = 0xA9 ∧
    CPU.exec 2 cpuC4A mC4 1 = CPU.exec 2 cpuC4B mC4 2 :=
  ⟨rfl, rfl, rfl⟩

/-- C4 (amended): when the fetched opcode has no decode arm the loop stops
at once, having consumed exactly the 1-cycle opcode fetch; the state
reported through the mutable references is the CPU after that fetch, with
memory untouched — but no explicit halt signal distinct from budget
exhaustion is produced. -/
theorem C4_illegal_opcode_stops_loop (f : Nat) (cpu : CPU) (mem : MEM) (cycles : Nat)
    (hc : 0 < cycles) (hmax : cycles < 4294967296)
    (h1 : mem.data cpu.pc ≠ 0xA9) (h2 : mem.data cpu.pc ≠ 0xA5)
    (h3 : mem.data cpu.pc ≠ 0xB5) (h4 : mem.data cpu.pc ≠ 0x20) :
    CPU.exec (f + 1) cpu mem cycles =
      .ok { cpu with pc := (cpu.pc + 1) % 65536 } mem (cycles - 1) := by
  have hs := execStep_illegal cpu mem cycles h1 h2 h3 h4
  have hd : decCycles cycles = cycles - 1 := by
    unfold decCycles
    omega
  rw [hd] at hs
  exact exec_break f cpu mem cycles _ mem (cycles - 1) hc hs

/-- C4 (witness): the illegal opcode 0xFF under a budget of 5 stops the
loop after the single fetch, leaving 4 cycles. -/
theorem C4_illegal_opcode_witness :
    (0 : Nat) < 5 ∧ (5 : Nat) < 4294967296 ∧
    mAllFF.data CPU.zeroed.pc ≠ 0xA9 ∧ mAllFF.data CPU.zeroed.pc ≠ 0xA5 ∧
    mAllFF.data CPU.zeroed.pc ≠ 0xB5 ∧ mAllFF.data CPU.zeroed.pc ≠ 0x20 ∧
    CPU.exec 1 CPU.zeroed mAllFF 5 = .ok { CPU.zeroed with pc := 1 } mAllFF 4 :=
  ⟨by decide, by decide, by decide, by decide, by decide, by decide,
   C4_illegal_opcode_stops_loop 0 CPU.zeroed mAllFF 5 (by decide) (by decide)
     (by decide) (by decide) (by decide) (by decide)⟩

/-- C5 (amended): with a budget of exactly 6 a JSR fetches the target word,
writes PC − 1 (the address of the last byte of the instruction) little
endian to the two cells `[sp]` and `[sp + 1]` — the raw stack-pointer value
used as an absolute address, with no stack-page base and in ascending
order — leaves SP itself unchanged, sets PC to the target and ends with 0
cycles remaining, i.e. consumes exactly 6 cycles. -/
theorem C5_jsr_behaviour (f : Nat) (cpu : CPU) (mem : MEM)
    (h : mem.data cpu.pc = 0x20) (hpc : cpu.pc + 3 < 65536) (hsp : cpu.sp + 1 < 65536) :
    CPU.exec (f + 1) cpu mem 6 =
      .ok { cpu with pc := mem.data (cpu.pc + 1) + (mem.data (cpu.pc + 2)) <<< 8 }
          ((mem.writeByte cpu.sp ((cpu.pc + 2) &&& 0xFF)).writeByte
            (cpu.sp + 1) (((cpu.pc + 2) >>> 8) % 256))
          0 :=
  run_jsr f cpu mem h hpc hsp

/-- C5 (witness): JSR `20 34 12` at 0x0200 with SP = 0xFF jumps to 0x1234,
writing the return address 0x0202 to cells 0x00FF and 0x0100. -/
theorem C5_jsr_witness :
    mC5.data cpuC5.pc = 0x20 ∧ cpuC5.pc + 3 < 65536 ∧ cpuC5.sp + 1 < 65536 ∧
    CPU.exec 1 cpuC5 mC5 6 =
      .ok { cpuC5 with pc := 0x1234 }
          ((mC5.writeByte 0xFF 0x02).writeByte 0x100 0x02) 0 :=
  ⟨rfl, by decide, by decide,
   C5_jsr_behaviour 0 cpuC5 mC5 rfl (by decide) (by decide)⟩

/-- C5 (counterexample): after the JSR at 0x0200 with SP = 0xFF the stack
pointer still reads 0xFF — it was not decremented by 2 — and the stack-page
cells 0x01FF/0x01FE, where the claim says the return address is pushed,
still hold 0. -/
theorem C5_jsr_counterexample :
    ((CPU.exec 1 cpuC5 mC5 6).cpuOf.map CPU.sp) = some 0xFF ∧
    (0xFF : Nat) ≠ 0xFF - 2 ∧
    ((CPU.exec 1 cpuC5 mC5 6).memOf.map (fun m => m.data 0x01FF)) = some 0 ∧
    ((CPU.exec 1 cpuC5 mC5 6).memOf.map (fun m => m.data 0x01FE)) = some 0 :=
  ⟨rfl, by decide, rfl, rfl⟩

/-- C6: a single LDA immediate consumes exactly 2 cycles, a single LDA
zero-page exactly 3 and a single LDA zero-page,X exactly 4, for every CPU
state, memory and operand values: a budget equal to the documented cost is
driven exactly to 0 and the instruction completes. -/
theorem C6_load_cycle_costs (f : Nat) (cpu : CPU) (mem : MEM) :
    (mem.data cpu.pc = 0xA9 →
      CPU.exec (f + 1) cpu mem 2 =
        .ok (CPU.lda_set_status
              { cpu with pc := (cpu.pc + 2) % 65536,
                         a := mem.data ((cpu.pc + 1) % 65536) }) mem 0) ∧
    (mem.data cpu.pc = 0xA5 →
      CPU.exec (f + 1) cpu mem 3 =
        .ok (CPU.lda_set_status
              { cpu with pc := (cpu.pc + 3) % 65536,
                         a := mem.data (mem.data ((cpu.pc + 1) % 65536)) }) mem 0) ∧
    (mem.data cpu.pc = 0xB5 →
      CPU.exec (f + 1) cpu mem 4 =
        .ok (CPU.lda_set_status
              { cpu with pc := (cpu.pc + 3) % 65536,
                         a := mem.data ((mem.data ((cpu.pc + 1) % 65536) + cpu.x) % 256) })
            mem 0) :=
  ⟨fun h => run_im f cpu mem h, fun h => run_zp f cpu mem h,
   fun h => run_zpx f cpu mem h⟩

/-- C6 (witness): the three loads at concrete inputs drive budgets 2, 3
and 4 exactly to 0. -/
theorem C6_load_cycle_costs_witness :
    mC6im.data CPU.zeroed.pc = 0xA9 ∧
    CPU.exec 1 CPU.zeroed mC6im 2 = .ok { CPU.zeroed with pc := 2, a := 0x37 } mC6im 0 ∧
    mC6zp.data CPU.zeroed.pc = 0xA5 ∧
    CPU.exec 1 CPU.zeroed mC6zp 3 = .ok { CPU.zeroed with pc := 3, a := 0x10 } mC6zp 0 ∧
    mC6zpx.data CPU.zeroed.pc = 0xB5 ∧
    CPU.exec 1 CPU.zeroed mC6zpx 4 = .ok { CPU.zeroed with pc := 3, a := 0x55 } mC6zpx 0 :=
  ⟨rfl, (C6_load_cycle_costs 0 CPU.zeroed mC6im).1 rfl,
   rfl, (C6_load_cycle_costs 0 CPU.zeroed mC6zp).2.1 rfl,
   rfl, (C6_load_cycle_costs 0 CPU.zeroed mC6zpx).2.2 rfl⟩

/-- C7: every load, in each of the three supported addressing modes,
obeys the flag discipline: a loaded value of 0 sets Zero and clears
Negative, a loaded value with bit 7 set sets Negative and clears Zero, and
the Carry, Interrupt, Decimal, Break and Overflow flags are untouched. -/
theorem C7_load_flags (f : Nat) (cpu : CPU) (mem : MEM) :
    (mem.data cpu.pc = 0xA9 →
      FlagSpec (CPU.exec (f + 1) cpu mem 2) cpu (mem.data ((cpu.pc + 1) % 65536))) ∧
    (mem.data cpu.pc = 0xA5 →
      FlagSpec (CPU.exec (f + 1) cpu mem 3) cpu
        (mem.data (mem.data ((cpu.pc + 1) % 65536)))) ∧
    (mem.data cpu.pc = 0xB5 →
      FlagSpec (CPU.exec (f + 1) cpu mem 4) cpu
        (mem.data ((mem.data ((cpu.pc + 1) % 65536) + cpu.x) % 256))) := by
  refine ⟨fun h => ?_, fun h => ?_, fun h => ?_⟩
  · rw [run_im f cpu mem h]
    exact flagSpec_lda cpu _ _ mem 0
  · rw [run_zp f cpu mem h]
    exact flagSpec_lda cpu _ _ mem 0
  · rw [run_zpx f cpu mem h]
    exact flagSpec_lda cpu _ _ mem 0

/-- C7 (witness): loading the value 0 immediately sets Zero, and loading
0x80 from the zero page sets Negative. -/
theorem C7_load_flags_witness :
    mC7a.data CPU.zeroed.pc = 0xA9 ∧
    FlagSpec (CPU.exec 1 CPU.zeroed mC7a 2) CPU.zeroed (mC7a.data 1) ∧
    (CPU.exec 1 CPU.zeroed mC7a 2).cpuOf.map CPU.Z = some true ∧
    mC7b.data CPU.zeroed.pc = 0xA5 ∧
    FlagSpec (CPU.exec 1 CPU.zeroed mC7b 3) CPU.zeroed (mC7b.data (mC7b.data 1)) ∧
    (CPU.exec 1 CPU.zeroed mC7b 3).cpuOf.map CPU.N = some true :=
  ⟨rfl, (C7_load_flags 0 CPU.zeroed mC7a).1 rfl, rfl,
   rfl, (C7_load_flags 0 CPU.zeroed mC7b).2.1 rfl, rfl⟩

/-- C8: zero-page,X addressing resolves its effective address as
(base + X) mod 256 — the instruction-stream byte plus the X register with
8-bit wraparound, never carrying into another page — and the operand is
read from exactly that address. -/
theorem C8_zpx_effective_address (cpu : CPU) (mem : MEM) (cycles : Nat)
    (h : mem.data cpu.pc = 0xB5) :
    execStep cpu mem cycles =
      .cont (CPU.lda_set_status
              { cpu with pc := (cpu.pc + 3) % 65536,
                         a := mem.data ((mem.data ((cpu.pc + 1) % 65536) + cpu.x) % 256) })
            mem (decCycles (decCycles (decCycles (decCycles cycles)))) :=
  execStep_zpx cpu mem cycles h

/-- C8 (witness): base 0x80 with X = 0xFF wraps to effective address 0x7F,
whose content 0x5A is loaded. -/
theorem C8_zpx_witness :
    mC8.data cpuC8.pc = 0xB5 ∧ (0x80 + 0xFF) % 256 = 0x7F ∧
    execStep cpuC8 mC8 4 = .cont { cpuC8 with pc := 3, a := 0x5A } mC8 0 :=
  ⟨rfl, by decide, C8_zpx_effective_address cpuC8 mC8 4 rfl⟩

/-- C9 (amended): `write_word` succeeds — writing the low byte at `addr`,
the high byte at `addr + 1` and decrementing the counter by 2 — exactly
when `addr + 1 < 65536`; addresses are not reduced modulo the memory
size. -/
theorem C9_write_word_in_bounds (m : MEM) (data addr cycles : Nat)
    (h : addr + 1 < 65536) :
    MEM.write_word m data addr cycles =
      some ((m.writeByte addr (data &&& 0xFF)).writeByte (addr + 1) ((data >>> 8) % 256),
            decCycles2 cycles) := by
  have h0 : addr < 65536 := by omega
  simp [MEM.write_word, h0, h]

/-- C9 (witness): an in-bounds `write_word` at 0x1000 succeeds. -/
theorem C9_write_word_witness :
    0x1000 + 1 < 65536 ∧
    MEM.write_word mAllZero 0x1234 0x1000 50 =
      some ((mAllZero.writeByte 0x1000 (0x1234 &&& 0xFF)).writeByte 0x1001
              ((0x1234 >>> 8) % 256),
            decCycles2 50) :=
  ⟨by decide, C9_write_word_in_bounds mAllZero 0x1234 0x1000 50 (by decide)⟩

/-- C9 (counterexample): `write_word` at the top of memory (0xFFFF) does
not wrap around — the high byte would be written at index 65536, which is
out of bounds, so the call panics. -/
theorem C9_write_word_counterexample :
    MEM.write_word mAllZero 0xABCD 0xFFFF 100 = none :=
  rfl

/-- C10: calling the execute loop with a cycle budget of 0 performs no
fetch and is a complete no-op: the CPU, the memory and the counter are
returned unchanged. -/
theorem C10_zero_budget_is_noop (fuel : Nat) (cpu : CPU) (mem : MEM) :
    CPU.exec fuel cpu mem 0 = .ok cpu mem 0 :=
  exec_zero fuel cpu mem
